import Mathlib

/-!
# FactNet — verification of the spec against the source

Shallow embedding of the `factnet` Python package (knowledge graph of
facts connected by typed, weighted relationships) and proofs of the
claims about it.

Modelling conventions:
* Python `float` confidence scores are modelled as `ℚ` (the claims only
  compare them exactly or against the literal threshold `0.3`).
* Python `dict` (insertion-ordered, update-in-place) is modelled as an
  association list with `dictInsert`.
* Fallible external calls (the OpenAI chat API, `json.loads`, a
  user-supplied detector function) are modelled as `Except String _`
  values: `.error` is a raised exception, `.ok` a normal return.
* Optional arguments that Python tests for truthiness (`if fact_id:`)
  are modelled as `Option String` together with `pyTruthy`, which is
  false for `none` and for the empty string, matching Python falsiness.
-/

set_option autoImplicit false

namespace FactNet

/-- `relationship_types.RelationshipType`: the closed three-element enum. -/
inductive RelationshipType where
  | SUPPORTS
  | CONTRADICTS
  | NEUTRAL
  deriving DecidableEq, Repr

/-- Fact/Relationship `metadata` dicts are opaque to the core; we model them
as string-keyed association lists of string values. -/
def Metadata := List (String × String)
  deriving DecidableEq, Repr

instance : EmptyCollection Metadata := ⟨([] : List (String × String))⟩

/-- `knowledge_network.Fact` (after `__post_init__`; id generation is modelled
separately in `factConstruct`). -/
structure Fact where
  id : String
  content : String
  metadata : Metadata
  deriving DecidableEq, Repr

/-- `knowledge_network.Relationship`: a directed typed weighted edge. -/
structure Relationship where
  source_id : String
  target_id : String
  type : RelationshipType
  confidence : ℚ
  metadata : Metadata
  deriving DecidableEq, Repr

/-- Python truthiness of an `Optional[str]`: `None` and `""` are falsy. -/
def pyTruthy : Option String → Bool
  | none => false
  | some s => s ≠ ""

/-- The ordered-pair test
`r.source_id == relationship.source_id and r.target_id == relationship.target_id`
used by `InMemoryStorage.add_relationship` to find edges to replace. -/
def samePair (s t : String) (q : Relationship) : Bool :=
  (q.source_id = s ∧ q.target_id = t : Bool)

/-- `backends.InMemoryStorage`: a dict of facts keyed by id plus a list of
relationship edges. -/
structure InMemoryStorage where
  facts : List (String × Fact)
  relationships : List Relationship
  deriving DecidableEq, Repr

namespace InMemoryStorage

/-- The empty storage produced by `InMemoryStorage.__init__`. -/
def empty : InMemoryStorage := ⟨[], []⟩

/-- Python dict assignment `d[k] = v`: replaces the value in place if the key
is present (keeping its position), otherwise appends at the end. -/
def dictInsert (l : List (String × Fact)) (f : Fact) : List (String × Fact) :=
  if f.id ∈ l.map Prod.fst then
    l.map (fun p => if p.1 = f.id then (p.1, f) else p)
  else
    l ++ [(f.id, f)]

/-- `InMemoryStorage.add_fact`: `self.facts[fact.id] = fact`. -/
def add_fact (st : InMemoryStorage) (f : Fact) : InMemoryStorage :=
  { st with facts := dictInsert st.facts f }

/-- `InMemoryStorage.get_fact`: `self.facts.get(fact_id)`. -/
def get_fact (st : InMemoryStorage) (fact_id : String) : Option Fact :=
  (st.facts.find? (fun p => p.1 = fact_id)).map Prod.snd

/-- `InMemoryStorage.get_all_facts`: `list(self.facts.values())`. -/
def get_all_facts (st : InMemoryStorage) : List Fact :=
  st.facts.map Prod.snd

/-- `InMemoryStorage.add_relationship`: drop every stored edge with the same
ordered `(source_id, target_id)` pair, then append the new edge. -/
def add_relationship (st : InMemoryStorage) (r : Relationship) : InMemoryStorage :=
  { st with
    relationships :=
      (st.relationships.filter
        (fun q => !samePair r.source_id r.target_id q)) ++ [r] }

/-- `InMemoryStorage.get_relationships`: all edges when `fact_id` is falsy,
otherwise the edges in which the fact participates as source or target. -/
def get_relationships (st : InMemoryStorage) (fact_id : Option String) : List Relationship :=
  if pyTruthy fact_id then
    st.relationships.filter
      (fun r => (some r.source_id = fact_id ∨ some r.target_id = fact_id : Bool))
  else
    st.relationships

end InMemoryStorage

/-- The Python call `Relationship(source_id, target_id, type, confidence)`:
the dataclass fills the omitted `metadata` with its default `{}`. -/
def Relationship.mkDefault (source_id target_id : String)
    (type : RelationshipType) (confidence : ℚ) : Relationship :=
  ⟨source_id, target_id, type, confidence, ∅⟩

/-- `InMemoryStorage.update_relationship`: build
`Relationship(source_id, target_id, relationship_type, confidence)` and
delegate to `add_relationship`. -/
def InMemoryStorage.update_relationship (st : InMemoryStorage)
    (source_id target_id : String) (relationship_type : RelationshipType)
    (confidence : ℚ) : InMemoryStorage :=
  st.add_relationship
    (Relationship.mkDefault source_id target_id relationship_type confidence)

/-- After `add_relationship r`, the edges matching `r`'s ordered pair are
exactly `[r]`. -/
theorem filter_samePair_of_add (st : InMemoryStorage) (r : Relationship) :
    ((st.add_relationship r).relationships.filter (samePair r.source_id r.target_id)) = [r] := by
  simp only [InMemoryStorage.add_relationship, List.filter_append]
  have h1 : (st.relationships.filter
      (fun q => !samePair r.source_id r.target_id q)).filter
        (samePair r.source_id r.target_id) = [] := by
    refine List.filter_eq_nil_iff.mpr ?_
    intro q hq
    have hmem := List.of_mem_filter hq
    simpa using hmem
  rw [h1]
  simp [samePair]

/-- Statistics record returned by `KnowledgeGraph.get_network_stats`. -/
structure NetworkStats where
  total_facts : ℕ
  total_relationships : ℕ
  support_relationships : ℕ
  contradiction_relationships : ℕ
  neutral_relationships : ℕ
  deriving DecidableEq, Repr

/- The `knowledge_graph.KnowledgeGraph` read operations, over the in-memory
backend. The orchestrator holds a storage instance; we pass the storage state
explicitly. -/
namespace KnowledgeGraph

/-- `KnowledgeGraph.get_relationships`: read from storage, then apply the
optional type filter client-side (`if relationship_type:`; an enum member is
always truthy, `None` falsy). -/
def get_relationships (st : InMemoryStorage) (fact_id : Option String)
    (relationship_type : Option RelationshipType) : List Relationship :=
  let relationships := st.get_relationships fact_id
  match relationship_type with
  | some ty => relationships.filter (fun r => (r.type = ty : Bool))
  | none => relationships

/-- `KnowledgeGraph.get_supporting_facts`: SUPPORTS edges in which the fact
participates, kept only when it is the target, sources resolved via storage
and unresolved sources skipped (`if fact:`). -/
def get_supporting_facts (st : InMemoryStorage) (fact_id : String) : List Fact :=
  (get_relationships st (some fact_id) (some RelationshipType.SUPPORTS)).filterMap
    (fun rel => if rel.target_id = fact_id then st.get_fact rel.source_id else none)

/-- `KnowledgeGraph.get_contradicting_facts`: as above for CONTRADICTS. -/
def get_contradicting_facts (st : InMemoryStorage) (fact_id : String) : List Fact :=
  (get_relationships st (some fact_id) (some RelationshipType.CONTRADICTS)).filterMap
    (fun rel => if rel.target_id = fact_id then st.get_fact rel.source_id else none)

/-- `KnowledgeGraph.get_network_stats`: counts computed fresh from storage. -/
def get_network_stats (st : InMemoryStorage) : NetworkStats :=
  let facts := st.get_all_facts
  let relationships := get_relationships st none none
  { total_facts := facts.length
    total_relationships := relationships.length
    support_relationships :=
      (relationships.filter (fun r => (r.type = RelationshipType.SUPPORTS : Bool))).length
    contradiction_relationships :=
      (relationships.filter (fun r => (r.type = RelationshipType.CONTRADICTS : Bool))).length
    neutral_relationships :=
      (relationships.filter (fun r => (r.type = RelationshipType.NEUTRAL : Bool))).length }

/-- `KnowledgeGraph.add_manual_relationship`: build the `Relationship` record
and write it straight through `storage.add_relationship`, bypassing the queue. -/
def add_manual_relationship (st : InMemoryStorage) (source_id target_id : String)
    (relationship_type : RelationshipType) (confidence : ℚ) (metadata : Metadata) :
    InMemoryStorage × Relationship :=
  let relationship : Relationship :=
    ⟨source_id, target_id, relationship_type, confidence, metadata⟩
  (st.add_relationship relationship, relationship)

end KnowledgeGraph

/-- C1: after `add_relationship r` (and after `update_relationship`, which
routes through it) the in-memory storage holds exactly one edge for `r`'s
ordered `(source_id, target_id)` pair, carrying `r`'s type, confidence and
metadata; a second add for the same ordered pair leaves exactly the edge of
the last call, never two. -/
theorem C1_add_relationship_replaces (st : InMemoryStorage) (r : Relationship)
    (ty ty2 : RelationshipType) (c c2 : ℚ) (md2 : Metadata) :
    ((st.add_relationship r).relationships.filter (samePair r.source_id r.target_id)) = [r] ∧
    (((st.add_relationship r).add_relationship
        ⟨r.source_id, r.target_id, ty2, c2, md2⟩).relationships.filter
      (samePair r.source_id r.target_id)) = [⟨r.source_id, r.target_id, ty2, c2, md2⟩] ∧
    ((st.update_relationship r.source_id r.target_id ty c).relationships.filter
      (samePair r.source_id r.target_id)) = [⟨r.source_id, r.target_id, ty, c, ∅⟩] := by
  refine ⟨filter_samePair_of_add st r, ?_, ?_⟩
  · exact filter_samePair_of_add (st.add_relationship r) ⟨r.source_id, r.target_id, ty2, c2, md2⟩
  · exact filter_samePair_of_add st ⟨r.source_id, r.target_id, ty, c, ∅⟩

/-- Every relationship's type is one of the three closed kinds, so the three
per-type filters partition any edge list. -/
theorem length_filter_type_partition (l : List Relationship) :
    l.length =
      (l.filter (fun r => (r.type = RelationshipType.SUPPORTS : Bool))).length +
      (l.filter (fun r => (r.type = RelationshipType.CONTRADICTS : Bool))).length +
      (l.filter (fun r => (r.type = RelationshipType.NEUTRAL : Bool))).length := by
  induction l with
  | nil => simp
  | cons r rest ih =>
    cases h : r.type <;> simp [List.filter_cons, h, ih] <;> omega

/-- C8: for every storage state, `get_network_stats` satisfies
`total_relationships = support + contradiction + neutral`. -/
theorem C8_network_stats_partition (st : InMemoryStorage) :
    (KnowledgeGraph.get_network_stats st).total_relationships =
      (KnowledgeGraph.get_network_stats st).support_relationships +
      (KnowledgeGraph.get_network_stats st).contradiction_relationships +
      (KnowledgeGraph.get_network_stats st).neutral_relationships := by
  simp only [KnowledgeGraph.get_network_stats]
  exact length_filter_type_partition _

/-- Membership in the "edges into `x` of type `ty`, sources resolved" list
computed by `get_supporting_facts` / `get_contradicting_facts`. -/
theorem mem_target_resolved (st : InMemoryStorage) (x : String)
    (ty : RelationshipType) (f : Fact) :
    f ∈ ((KnowledgeGraph.get_relationships st (some x) (some ty)).filterMap
      (fun rel => if rel.target_id = x then st.get_fact rel.source_id else none)) ↔
    ∃ r ∈ st.relationships, r.type = ty ∧ r.target_id = x ∧
      st.get_fact r.source_id = some f := by
  simp only [KnowledgeGraph.get_relationships, InMemoryStorage.get_relationships,
    List.mem_filterMap]
  constructor
  · rintro ⟨r, hr, hg⟩
    rw [List.mem_filter] at hr
    obtain ⟨hr1, hty⟩ := hr
    have hty2 : r.type = ty := by simpa using hty
    have hr2 : r ∈ st.relationships := by
      by_cases hpt : pyTruthy (some x)
      · rw [if_pos hpt] at hr1
        exact List.mem_of_mem_filter hr1
      · rw [if_neg hpt] at hr1
        exact hr1
    by_cases htgt : r.target_id = x
    · rw [if_pos htgt] at hg
      exact ⟨r, hr2, hty2, htgt, hg⟩
    · rw [if_neg htgt] at hg
      cases hg
  · rintro ⟨r, hr, hty, htgt, hres⟩
    refine ⟨r, ?_, ?_⟩
    · rw [List.mem_filter]
      refine ⟨?_, by simp [hty]⟩
      by_cases hpt : pyTruthy (some x)
      · rw [if_pos hpt, List.mem_filter]
        exact ⟨hr, by simp [htgt]⟩
      · rw [if_neg hpt]
        exact hr
    · rw [if_pos htgt]
      exact hres

/-- C5: `get_supporting_facts x` contains exactly the facts `f` such that a
SUPPORTS edge `f → x` is stored and its source id resolves; edges with an
unresolvable source contribute nothing, and edges with `x` as source only are
excluded. `get_contradicting_facts` is the CONTRADICTS analogue. -/
theorem C5_supporting_contradicting (st : InMemoryStorage) (x : String) (f : Fact) :
    (f ∈ KnowledgeGraph.get_supporting_facts st x ↔
      ∃ r ∈ st.relationships, r.type = RelationshipType.SUPPORTS ∧ r.target_id = x ∧
        st.get_fact r.source_id = some f) ∧
    (f ∈ KnowledgeGraph.get_contradicting_facts st x ↔
      ∃ r ∈ st.relationships, r.type = RelationshipType.CONTRADICTS ∧ r.target_id = x ∧
        st.get_fact r.source_id = some f) :=
  ⟨mem_target_resolved st x RelationshipType.SUPPORTS f,
   mem_target_resolved st x RelationshipType.CONTRADICTS f⟩

/-- Spec-side notion for C9: the ids in order of first insertion. `seen`
accumulates ids already placed. -/
def firstOccFrom (seen : List String) : List String → List String
  | [] => []
  | i :: rest =>
      if i ∈ seen then firstOccFrom seen rest else i :: firstOccFrom (i :: seen) rest

/-- Spec-side notion for C9: first-insertion order of a list of ids. -/
def firstOcc (ids : List String) : List String := firstOccFrom [] ids

/-- A sequence of `InMemoryStorage.add_fact` calls starting from the empty
storage. -/
def addFacts (fs : List Fact) : InMemoryStorage :=
  fs.foldl InMemoryStorage.add_fact InMemoryStorage.empty

theorem dictInsert_keys_mem (l : List (String × Fact)) (f : Fact)
    (h : f.id ∈ l.map Prod.fst) :
    (InMemoryStorage.dictInsert l f).map Prod.fst = l.map Prod.fst := by
  simp only [InMemoryStorage.dictInsert, if_pos h, List.map_map]
  have hfun : (Prod.fst ∘ fun p : String × Fact => if p.1 = f.id then (p.1, f) else p) =
      Prod.fst := by
    funext p
    by_cases hp : p.1 = f.id <;> simp [hp]
  rw [hfun]

theorem dictInsert_keys_not_mem (l : List (String × Fact)) (f : Fact)
    (h : ¬ f.id ∈ l.map Prod.fst) :
    (InMemoryStorage.dictInsert l f).map Prod.fst = l.map Prod.fst ++ [f.id] := by
  simp [InMemoryStorage.dictInsert, if_neg h]

theorem firstOccFrom_congr (ids : List String) :
    ∀ s1 s2 : List String, (∀ x, x ∈ s1 ↔ x ∈ s2) →
      firstOccFrom s1 ids = firstOccFrom s2 ids := by
  induction ids with
  | nil => intro s1 s2 _; rfl
  | cons i rest ih =>
    intro s1 s2 h
    simp only [firstOccFrom]
    by_cases hi : i ∈ s1
    · rw [if_pos hi, if_pos ((h i).mp hi)]
      exact ih s1 s2 h
    · rw [if_neg hi, if_neg (fun hc => hi ((h i).mpr hc))]
      have hcons : ∀ x, x ∈ i :: s1 ↔ x ∈ i :: s2 := by
        intro x
        simp [h x]
      rw [ih _ _ hcons]

theorem foldl_dictInsert_keys (fs : List Fact) :
    ∀ l : List (String × Fact),
      ((fs.foldl InMemoryStorage.dictInsert l).map Prod.fst) =
        l.map Prod.fst ++ firstOccFrom (l.map Prod.fst) (fs.map Fact.id) := by
  induction fs with
  | nil => intro l; simp [firstOccFrom]
  | cons f rest ih =>
    intro l
    simp only [List.foldl_cons, List.map_cons, firstOccFrom]
    by_cases h : f.id ∈ l.map Prod.fst
    · rw [if_pos h, ih (InMemoryStorage.dictInsert l f), dictInsert_keys_mem l f h]
    · rw [if_neg h, ih (InMemoryStorage.dictInsert l f), dictInsert_keys_not_mem l f h]
      rw [firstOccFrom_congr (rest.map Fact.id) (l.map Prod.fst ++ [f.id])
        (f.id :: l.map Prod.fst) (by intro x; simp [or_comm])]
      simp

theorem addFacts_facts_eq_foldl (fs : List Fact) :
    ∀ st : InMemoryStorage,
      (fs.foldl InMemoryStorage.add_fact st).facts =
        fs.foldl InMemoryStorage.dictInsert st.facts := by
  induction fs with
  | nil => intro st; rfl
  | cons f rest ih =>
    intro st
    simp only [List.foldl_cons]
    exact ih (st.add_fact f)

theorem dictInsert_key_eq_id {l : List (String × Fact)}
    (hl : ∀ p ∈ l, p.1 = p.2.id) (f : Fact) :
    ∀ p ∈ InMemoryStorage.dictInsert l f, p.1 = p.2.id := by
  intro p hp
  simp only [InMemoryStorage.dictInsert] at hp
  by_cases h : f.id ∈ l.map Prod.fst
  · rw [if_pos h] at hp
    obtain ⟨q, hq, rfl⟩ := List.mem_map.mp hp
    by_cases hq1 : q.1 = f.id
    · simp [hq1]
    · simp only [if_neg hq1]
      exact hl q hq
  · rw [if_neg h] at hp
    rcases List.mem_append.mp hp with h1 | h2
    · exact hl p h1
    · simp only [List.mem_singleton] at h2
      subst h2
      rfl

theorem foldl_dictInsert_key_eq_id (fs : List Fact) :
    ∀ l : List (String × Fact), (∀ p ∈ l, p.1 = p.2.id) →
      ∀ p ∈ fs.foldl InMemoryStorage.dictInsert l, p.1 = p.2.id := by
  induction fs with
  | nil => intro l hl; exact hl
  | cons f rest ih =>
    intro l hl
    simp only [List.foldl_cons]
    exact ih _ (dictInsert_key_eq_id hl f)

theorem map_id_eq_keys {l : List (String × Fact)}
    (hl : ∀ p ∈ l, p.1 = p.2.id) :
    (l.map Prod.snd).map Fact.id = l.map Prod.fst := by
  induction l with
  | nil => rfl
  | cons p rest ih =>
    simp only [List.map_cons, List.cons.injEq]
    refine ⟨(hl p (by simp)).symm, ih fun q hq => hl q (by simp [hq])⟩

/-- C9: for every sequence of `add_fact` calls, the in-memory backend's
`get_all_facts` lists facts in the order their ids were first inserted — a
later `add_fact` reusing an existing id overwrites the value in place without
moving it. -/
theorem C9_get_all_facts_insertion_order (fs : List Fact) :
    ((addFacts fs).get_all_facts).map Fact.id = firstOcc (fs.map Fact.id) := by
  have hfacts : (addFacts fs).facts =
      fs.foldl InMemoryStorage.dictInsert ([] : List (String × Fact)) :=
    addFacts_facts_eq_foldl fs InMemoryStorage.empty
  have hinv : ∀ p ∈ (addFacts fs).facts, p.1 = p.2.id := by
    rw [hfacts]
    exact foldl_dictInsert_key_eq_id fs [] (by intro p hp; cases hp)
  show ((addFacts fs).facts.map Prod.snd).map Fact.id = firstOcc (fs.map Fact.id)
  rw [map_id_eq_keys hinv, hfacts, foldl_dictInsert_keys fs []]
  rfl

/-- A detection triple `(target_fact_id, relationship_type, confidence)`. -/
abbrev Triple := String × RelationshipType × ℚ

/-- One entry of the JSON array decoded from the delegate's response, after
field extraction: `rel_data.get("fact_id")`, `rel_data.get("relationship", "")`
and `float(rel_data.get("confidence", 0.0))`. A record whose fields cannot be
extracted or converted aborts the whole parse; that outcome is folded into the
`.error` case of the decode result. -/
structure RelRecord where
  fact_id : Option String
  relationship : String
  confidence : ℚ
  deriving DecidableEq, Repr

/-- The `relationship_str == "supports" / "contradicts" / "neutral"` chain of
`_parse_response` (the string has been lowercased; anything else is skipped). -/
def parseRelationshipString (s : String) : Option RelationshipType :=
  if s = "supports" then some RelationshipType.SUPPORTS
  else if s = "contradicts" then some RelationshipType.CONTRADICTS
  else if s = "neutral" then some RelationshipType.NEUTRAL
  else none

/-- `OpenAIRelationshipDetector._parse_response`. `decoded` is the outcome of
`json.loads` plus per-record field conversion (`.error` = an exception caught
by the surrounding `except`, yielding `[]`). Python's literal `0.3` is modelled
as the rational `3/10`. -/
def parse_response (decoded : Except String (List RelRecord))
    (existing_facts : List Fact) : List Triple :=
  match decoded with
  | Except.error _ => []
  | Except.ok relationships_data =>
      let existing_fact_ids := existing_facts.map Fact.id
      relationships_data.filterMap (fun rel_data =>
        match rel_data.fact_id with
        | none => none
        | some fid =>
            if fid ∈ existing_fact_ids then
              match parseRelationshipString rel_data.relationship.toLower with
              | some rel_type =>
                  if 3/10 < rel_data.confidence then some (fid, rel_type, rel_data.confidence)
                  else none
              | none => none
            else none)

/-- `OpenAIRelationshipDetector._process_batch`: the external chat-completion
call is modelled by its outcome `api_outcome` (`.error` = a raised exception);
`decode` models `json.loads` on the returned content. The body sits in a
`try/except Exception` that catches every failure and returns `[]`. -/
def process_batch (api_outcome : Except String String)
    (decode : String → Except String (List RelRecord))
    (existing_facts : List Fact) : List Triple :=
  match api_outcome with
  | Except.error _ => []
  | Except.ok content => parse_response (decode content) existing_facts

/-- The `for i in range(0, len(existing_facts), n)` slicing of
`OpenAIRelationshipDetector.detect_relationships`. Python raises `ValueError`
on step 0, so `n = 0` (never used: the constructor default is 20) is mapped to
no batches and excluded from the theorems below. -/
def batches (n : ℕ) (l : List Fact) : List (List Fact) :=
  if l = [] then []
  else if n = 0 then []
  else l.take n :: batches n (l.drop n)
termination_by l.length
decreasing_by
  rename_i hl hn
  simp only [List.length_drop]
  have h1 : 0 < l.length := List.length_pos.mpr hl
  omega

/-- `OpenAIRelationshipDetector.detect_relationships`: empty corpus short
circuit, then one `_process_batch` per slice, results concatenated. `api`
gives the outcome of each per-batch chat call. -/
def OpenAI_detect_relationships (api : Fact → List Fact → Except String String)
    (decode : String → Except String (List RelRecord))
    (max_facts_per_request : ℕ) (new_fact : Fact) (existing_facts : List Fact) :
    List Triple :=
  if existing_facts = [] then []
  else
    (batches max_facts_per_request existing_facts).foldl
      (fun relationships batch =>
        relationships ++ process_batch (api new_fact batch) decode batch) []

/-- `CustomAIDetector.detect_relationships`: returns
`await self.detect_function(new_fact, existing_facts)` with no `try`/`except`
anywhere, so the wrapped function's outcome — a raised exception included — is
forwarded unchanged to the caller. -/
def Custom_detect_relationships
    (detect_function : Fact → List Fact → Except String (List Triple))
    (new_fact : Fact) (existing_facts : List Fact) : Except String (List Triple) :=
  detect_function new_fact existing_facts

/-- C6: every triple produced by `_parse_response` has confidence strictly
above the fixed `0.3` threshold, for every decode outcome and every
`existing_facts` list. -/
theorem C6_parse_response_confidence_threshold
    (decoded : Except String (List RelRecord)) (existing_facts : List Fact) :
    ((parse_response decoded existing_facts).all
      (fun t => (3/10 < t.2.2 : Bool))) = true := by
  cases decoded with
  | error e => rfl
  | ok data =>
      simp only [parse_response, List.all_eq_true]
      intro t ht
      obtain ⟨rd, _, hsome⟩ := List.mem_filterMap.mp ht
      cases hfid : rd.fact_id with
      | none =>
          simp only [hfid] at hsome
          exact Option.noConfusion hsome
      | some fid =>
          simp only [hfid] at hsome
          by_cases hin : fid ∈ existing_facts.map Fact.id
          · rw [if_pos hin] at hsome
            cases hty : parseRelationshipString rd.relationship.toLower with
            | none =>
                simp only [hty] at hsome
                exact Option.noConfusion hsome
            | some rel_type =>
                simp only [hty] at hsome
                by_cases hc : 3/10 < rd.confidence
                · rw [if_pos hc] at hsome
                  cases hsome
                  simpa using hc
                · rw [if_neg hc] at hsome
                  exact Option.noConfusion hsome
          · rw [if_neg hin] at hsome
            exact Option.noConfusion hsome

theorem foldl_append_nil_of_all_nil {α β : Type} (l : List α) (g : α → List β) :
    (∀ a ∈ l, g a = []) → l.foldl (fun acc a => acc ++ g a) [] = [] := by
  have general : ∀ acc : List β, (∀ a ∈ l, g a = []) →
      l.foldl (fun acc a => acc ++ g a) acc = acc := by
    induction l with
    | nil => intro acc _; rfl
    | cons a rest ih =>
        intro acc h
        simp only [List.foldl_cons, h a (by simp)]
        rw [List.append_nil]
        exact ih acc fun b hb => h b (by simp [hb])
  exact general []

/-- C2 (amended): the OpenAI detector catches external failures internally,
in both failure modes — `_process_batch` turns a raised chat call into `[]`
and turns an unparsable (undecodable) response into `[]`, and
`detect_relationships` returns `[]` whenever every per-batch call raises, as
well as whenever every response fails to decode — while
`CustomAIDetector.detect_relationships` forwards the wrapped function's
outcome unchanged, propagating its failures to the orchestrator. -/
theorem C2_detector_failure_handling
    (decode : String → Except String (List RelRecord)) (existing_facts : List Fact)
    (e content d : String) (efn : Fact → List Fact → String)
    (dfn : String → String) (api : Fact → List Fact → Except String String)
    (new_fact : Fact) (n : ℕ) (hn : 0 < n)
    (hdecode : decode content = Except.error d)
    (detect_function : Fact → List Fact → Except String (List Triple)) :
    process_batch (Except.error e) decode existing_facts = [] ∧
    process_batch (Except.ok content) decode existing_facts = [] ∧
    OpenAI_detect_relationships (fun f b => Except.error (efn f b)) decode n
      new_fact existing_facts = [] ∧
    OpenAI_detect_relationships api (fun c => Except.error (dfn c)) n
      new_fact existing_facts = [] ∧
    Custom_detect_relationships detect_function new_fact existing_facts =
      detect_function new_fact existing_facts := by
  refine ⟨rfl, ?_, ?_, ?_, rfl⟩
  · show parse_response (decode content) existing_facts = []
    rw [hdecode]
    rfl
  · by_cases hemp : existing_facts = []
    · simp [OpenAI_detect_relationships, hemp]
    · simp only [OpenAI_detect_relationships, if_neg hemp]
      exact foldl_append_nil_of_all_nil _ _ fun b _ => rfl
  · by_cases hemp : existing_facts = []
    · simp [OpenAI_detect_relationships, hemp]
    · simp only [OpenAI_detect_relationships, if_neg hemp]
      refine foldl_append_nil_of_all_nil _ _ fun b _ => ?_
      cases api new_fact b with
      | error s => rfl
      | ok c => rfl

/-- Witness for C2's amended theorem at a concrete input, exercising the
raised-call mode, the unparsable-response mode and the custom wrapper. -/
theorem C2_detector_failure_handling_witness :
    (0 < 1 ∧
      (fun (_ : String) => (Except.error "bad json" : Except String (List RelRecord)))
        "resp" = Except.error "bad json") ∧
    (process_batch (Except.error "err") (fun _ => Except.error "bad json")
        [Fact.mk "B" "fact b" ∅] = [] ∧
      process_batch (Except.ok "resp") (fun _ => Except.error "bad json")
        [Fact.mk "B" "fact b" ∅] = [] ∧
      OpenAI_detect_relationships (fun _ _ => Except.error "err")
        (fun _ => Except.error "bad json") 1 (Fact.mk "A" "fact a" ∅)
        [Fact.mk "B" "fact b" ∅] = [] ∧
      OpenAI_detect_relationships (fun _ _ => Except.ok "resp")
        (fun _ => Except.error "bad json") 1 (Fact.mk "A" "fact a" ∅)
        [Fact.mk "B" "fact b" ∅] = [] ∧
      Custom_detect_relationships (fun _ _ => Except.ok [])
        (Fact.mk "A" "fact a" ∅) [Fact.mk "B" "fact b" ∅] =
        (fun (_ : Fact) (_ : List Fact) => Except.ok ([] : List Triple))
          (Fact.mk "A" "fact a" ∅) [Fact.mk "B" "fact b" ∅]) :=
  ⟨⟨by decide, rfl⟩,
   C2_detector_failure_handling (fun _ => Except.error "bad json")
     [Fact.mk "B" "fact b" ∅] "err" "resp" "bad json" (fun _ _ => "err")
     (fun _ => "bad json") (fun _ _ => Except.ok "resp") (Fact.mk "A" "fact a" ∅)
     1 (by decide) rfl (fun _ _ => Except.ok [])⟩

/-- C2 counterexample: `CustomAIDetector` is shipped with the core, yet when
its delegate raises, `detect_relationships` propagates the failure instead of
returning an empty sequence. -/
theorem C2_custom_detector_propagates :
    Custom_detect_relationships (fun _ _ => Except.error "boom")
        (Fact.mk "A" "fact a" ∅) [Fact.mk "B" "fact b" ∅] =
      Except.error "boom" ∧
    Custom_detect_relationships (fun _ _ => Except.error "boom")
        (Fact.mk "A" "fact a" ∅) [Fact.mk "B" "fact b" ∅] ≠
      Except.ok [] := by
  constructor
  · rfl
  · intro h
    cases h

/-- The worker's `existing_facts = [f for f in all_facts if f.id != new_fact.id]`
step of `KnowledgeGraph._process_relationships`. -/
def existingFor (st : InMemoryStorage) (new_fact : Fact) : List Fact :=
  st.get_all_facts.filter (fun f => !(f.id = new_fact.id : Bool))

/-- The worker's write-back loop: each detected
`(target_id, rel_type, confidence)` goes through
`storage.update_relationship(new_fact.id, target_id, rel_type, confidence)`. -/
def writeTriples (st : InMemoryStorage) (new_fact : Fact)
    (detected : List Triple) : InMemoryStorage :=
  detected.foldl
    (fun s tr => s.update_relationship new_fact.id tr.1 tr.2.1 tr.2.2) st

/-- One iteration of the `KnowledgeGraph._process_relationships` worker loop
for a dequeued fact, with a detector configured. The iteration body sits in a
`try`: a detector failure (`.error`) is caught, the item is still marked done,
and storage is left unchanged for that fact. -/
def processFact (det : Fact → List Fact → Except String (List Triple))
    (st : InMemoryStorage) (new_fact : Fact) : InMemoryStorage :=
  let existing_facts := existingFor st new_fact
  if existing_facts = [] then st
  else
    match det new_fact existing_facts with
    | Except.error _ => st
    | Except.ok detected => writeTriples st new_fact detected

/-- The worker draining the FIFO queue: one `processFact` iteration per queued
fact, in enqueue order. The fold is total: every item is consumed and marked
done, so `wait_for_processing` (which waits for the outstanding count to reach
zero) returns. -/
def drainQueue (det : Fact → List Fact → Except String (List Triple))
    (st : InMemoryStorage) (queue : List Fact) : InMemoryStorage :=
  queue.foldl (processFact det) st

theorem addFacts_foldl_relationships (fs : List Fact) :
    ∀ st : InMemoryStorage,
      (fs.foldl InMemoryStorage.add_fact st).relationships = st.relationships := by
  induction fs with
  | nil => intro st; rfl
  | cons f rest ih => intro st; exact ih (st.add_fact f)

theorem processFact_error (err : Fact → List Fact → String)
    (st : InMemoryStorage) (f : Fact) :
    processFact (fun a b => Except.error (err a b)) st f = st := by
  unfold processFact
  by_cases h : existingFor st f = [] <;> simp [h]

theorem drainQueue_error (err : Fact → List Fact → String) (queue : List Fact) :
    ∀ st : InMemoryStorage,
      drainQueue (fun a b => Except.error (err a b)) st queue = st := by
  induction queue with
  | nil => intro st; rfl
  | cons f rest ih =>
      intro st
      show drainQueue _ (processFact _ st f) rest = st
      rw [processFact_error, ih]

/-- C3: a detector failure is caught per iteration — the worker leaves storage
untouched for that fact, marks the item done and continues, so the whole queue
still drains (the fold is total) and, with a detector that raises on every
call, storage built by any sequence of `add_fact` calls ends with no
relationships at all. -/
theorem C3_worker_survives_detector_failures
    (err : Fact → List Fact → String) (queue fs : List Fact) :
    (∀ st : InMemoryStorage,
      drainQueue (fun a b => Except.error (err a b)) st queue = st) ∧
    KnowledgeGraph.get_relationships
      (drainQueue (fun a b => Except.error (err a b)) (addFacts fs) queue)
      none none = [] := by
  refine ⟨drainQueue_error err queue, ?_⟩
  rw [drainQueue_error err queue (addFacts fs)]
  show (addFacts fs).relationships = []
  exact addFacts_foldl_relationships fs InMemoryStorage.empty

/-- The always-SUPPORTS stub detector of Scenario C: for every existing fact
`g`, propose `(g.id, SUPPORTS, 0.5)`. -/
def stubDet : Fact → List Fact → Except String (List Triple) :=
  fun _ existing_facts =>
    Except.ok (existing_facts.map (fun g => (g.id, RelationshipType.SUPPORTS, 1/2)))

/-- Fact A of Scenario C. -/
def factA : Fact := ⟨"A", "fact A", ∅⟩

/-- Fact B of Scenario C. -/
def factB : Fact := ⟨"B", "fact B", ∅⟩

/-- Scenario C timeline against the actual event-loop semantics:
`add_fact(A)` then `add_fact(B)` complete without ever suspending (the
in-memory storage write and the unbounded `Queue.put` have no yield point), so
the background worker first runs once the caller blocks in
`wait_for_processing()`; at that moment both facts are stored and the FIFO
queue holds `[A, B]`. -/
def scenarioC : InMemoryStorage :=
  drainQueue stubDet ((InMemoryStorage.empty.add_fact factA).add_fact factB)
    [factA, factB]

/-- C4 (amended): the worker iteration fetches all facts, excludes exactly the
facts carrying the new fact's id, and — only when the remainder is non-empty —
consults the detector once, writing each returned triple through
`update_relationship`; but in Scenario C fact B is already stored when A is
processed (`add_fact` never yields to the worker), so draining yields a
SUPPORTS edge A→B in addition to the SUPPORTS edge B→A. -/
theorem C4_worker_processing
    (det : Fact → List Fact → Except String (List Triple))
    (st : InMemoryStorage) (f g : Fact) (tr : Triple) (detected : List Triple) :
    (g ∈ existingFor st f ↔ g ∈ st.get_all_facts ∧ ¬ g.id = f.id) ∧
    (processFact det st f =
      match existingFor st f, det f (existingFor st f) with
      | [], _ => st
      | _ :: _, Except.error _ => st
      | _ :: _, Except.ok dets => writeTriples st f dets) ∧
    (writeTriples st f (tr :: detected) =
      writeTriples (st.update_relationship f.id tr.1 tr.2.1 tr.2.2) f detected) ∧
    scenarioC.relationships =
      [⟨"A", "B", RelationshipType.SUPPORTS, 1/2, ∅⟩,
       ⟨"B", "A", RelationshipType.SUPPORTS, 1/2, ∅⟩] := by
  refine ⟨?_, ?_, rfl, by rfl⟩
  · simp [existingFor, List.mem_filter]
  · unfold processFact
    cases hex : existingFor st f with
    | nil => simp
    | cons a rest =>
        simp only [List.cons_ne_self]
        cases hdet : det f (a :: rest) with
        | error e => simp
        | ok dets => simp

/-- C4 counterexample for the claim as stated: in Scenario C the drained
storage holds two relationships, one of which is sourced from A — the claim
demanded exactly one relationship and zero sourced from A. -/
theorem C4_scenarioC_two_edges :
    scenarioC.relationships.length = 2 ∧
    (scenarioC.relationships.filter
      (fun r => (r.source_id = "A" : Bool))).length = 1 ∧
    (scenarioC.relationships.filter
      (fun r => (r.source_id = "B" ∧ r.target_id = "A" ∧
        r.type = RelationshipType.SUPPORTS : Bool))).length = 1 := by
  decide

/-- `RelationshipType.value`: the string stored for the enum member. -/
def RelationshipType.value : RelationshipType → String
  | RelationshipType.SUPPORTS => "supports"
  | RelationshipType.CONTRADICTS => "contradicts"
  | RelationshipType.NEUTRAL => "neutral"

/-- Neo4j rejects empty property maps, so `Neo4jStorage` stores
`fact.metadata if fact.metadata else None`. -/
def nullIfEmpty (md : Metadata) : Option Metadata :=
  if md = (∅ : Metadata) then none else some md

/-- A persisted `RELATES_TO` edge: the relationship kind is the string
`rel.type.value`; `updated_at` is backend time, opaque and omitted. -/
structure Neo4jEdge where
  source_id : String
  target_id : String
  type : String
  confidence : ℚ
  metadata : Option Metadata
  deriving DecidableEq, Repr

/-- The graph state `Neo4jStorage` manipulates: `Fact` node ids (node content
and metadata play no role in the relationship operations) and `RELATES_TO`
edges. -/
structure Neo4jGraph where
  node_ids : List String
  edges : List Neo4jEdge
  deriving DecidableEq, Repr

/-- The `MERGE (source)-[r:RELATES_TO {type: $type}]->(target)` match key:
ordered endpoint pair plus the type string. -/
def edgeKey (rel : Relationship) (e : Neo4jEdge) : Bool :=
  (e.source_id = rel.source_id ∧ e.target_id = rel.target_id ∧
    e.type = rel.type.value : Bool)

/-- `Neo4jStorage.add_relationship`: `MATCH` both endpoint nodes by id (if
either is absent the query touches nothing), `MERGE` the `RELATES_TO` edge
keyed by (source, target, type string), then `SET` confidence and metadata on
the matched (or created) edges. -/
def Neo4jGraph.add_relationship (g : Neo4jGraph) (rel : Relationship) : Neo4jGraph :=
  if rel.source_id ∈ g.node_ids ∧ rel.target_id ∈ g.node_ids then
    if g.edges.any (edgeKey rel) then
      { g with
        edges := g.edges.map (fun e =>
          if edgeKey rel e then
            { e with confidence := rel.confidence, metadata := nullIfEmpty rel.metadata }
          else e) }
    else
      { g with
        edges := g.edges ++
          [⟨rel.source_id, rel.target_id, rel.type.value, rel.confidence,
            nullIfEmpty rel.metadata⟩] }
  else g

/-- `Neo4jStorage.update_relationship`: build
`Relationship(source_id, target_id, relationship_type, confidence)` and
delegate to `add_relationship`, exactly as the in-memory backend does. -/
def Neo4jGraph.update_relationship (g : Neo4jGraph) (source_id target_id : String)
    (relationship_type : RelationshipType) (confidence : ℚ) : Neo4jGraph :=
  g.add_relationship
    (Relationship.mkDefault source_id target_id relationship_type confidence)

/-- C7: for every storage state and arguments, `update_relationship` produces
exactly the state `add_relationship` produces on a `Relationship` with those
fields and empty metadata — in both the in-memory and the database-backed
implementation (the dataclass's omitted-`metadata` default is `{}`). -/
theorem C7_update_relationship_is_add (st : InMemoryStorage) (g : Neo4jGraph)
    (source_id target_id : String) (relationship_type : RelationshipType)
    (confidence : ℚ) :
    st.update_relationship source_id target_id relationship_type confidence =
      st.add_relationship
        ⟨source_id, target_id, relationship_type, confidence, ∅⟩ ∧
    g.update_relationship source_id target_id relationship_type confidence =
      g.add_relationship
        ⟨source_id, target_id, relationship_type, confidence, ∅⟩ :=
  ⟨rfl, rfl⟩

/-- `Fact.__post_init__`: a falsy (empty) `id` is replaced by
`str(uuid.uuid4())`, modelled by the externally drawn string `gen`. -/
def factPostInit (gen : String) (f : Fact) : Fact :=
  if f.id = "" then { f with id := gen } else f

/-- Constructing `Fact(id=…, content=…, metadata=…)` runs `__post_init__`. -/
def factConstruct (gen : String) (id content : String) (metadata : Metadata) : Fact :=
  factPostInit gen ⟨id, content, metadata⟩

/-- `KnowledgeGraph.add_fact` (the synchronous storage part): build
`Fact(id=fact_id or str(uuid.uuid4()), content=content, metadata=metadata or {})`
and store it. `gen1` is the uuid4 string drawn by `add_fact`'s `or`, `gen2`
the one `__post_init__` would draw; Python's `or` replaces both `None` and
`""` (falsy) by the generated id. -/
def KnowledgeGraph.add_fact (gen1 gen2 : String) (st : InMemoryStorage)
    (content : String) (fact_id : Option String) (metadata : Metadata) :
    InMemoryStorage × Fact :=
  let fact := factConstruct gen2
    (if pyTruthy fact_id then fact_id.getD "" else gen1) content metadata
  (st.add_fact fact, fact)

theorem find_map_update (l : List (String × Fact)) (f : Fact)
    (h : f.id ∈ l.map Prod.fst) :
    (l.map (fun p => if p.1 = f.id then (p.1, f) else p)).find?
      (fun p => (p.1 = f.id : Bool)) = some (f.id, f) := by
  induction l with
  | nil => simp at h
  | cons q rest ih =>
      simp only [List.map_cons]
      by_cases hq : q.1 = f.id
      · rw [if_pos hq]
        rw [List.find?_cons_of_pos _ (by simp [hq])]
        rw [hq]
      · rw [if_neg hq]
        rw [List.find?_cons_of_neg _ (by simp [hq])]
        apply ih
        simp only [List.map_cons, List.mem_cons] at h
        rcases h with h | h
        · exact absurd h.symm hq
        · exact h

theorem find_append_new (l : List (String × Fact)) (f : Fact)
    (h : ¬ f.id ∈ l.map Prod.fst) :
    (l ++ [(f.id, f)]).find? (fun p => (p.1 = f.id : Bool)) = some (f.id, f) := by
  induction l with
  | nil => simp
  | cons q rest ih =>
      simp only [List.map_cons, List.mem_cons, not_or] at h
      obtain ⟨hq, hrest⟩ := h
      rw [List.cons_append, List.find?_cons_of_neg _ (by simp; exact fun hc => hq hc.symm)]
      exact ih hrest

theorem find_dictInsert (l : List (String × Fact)) (f : Fact) :
    (InMemoryStorage.dictInsert l f).find? (fun p => (p.1 = f.id : Bool)) =
      some (f.id, f) := by
  unfold InMemoryStorage.dictInsert
  by_cases h : f.id ∈ l.map Prod.fst
  · rw [if_pos h]
    exact find_map_update l f h
  · rw [if_neg h]
    exact find_append_new l f h

theorem find_map_update_other (l : List (String × Fact)) (f : Fact) (x : String)
    (hx : ¬ x = f.id) :
    (l.map (fun p => if p.1 = f.id then (p.1, f) else p)).find?
      (fun p => (p.1 = x : Bool)) = l.find? (fun p => (p.1 = x : Bool)) := by
  induction l with
  | nil => rfl
  | cons q rest ih =>
      simp only [List.map_cons]
      by_cases hqx : q.1 = x
      · have hqf : ¬ q.1 = f.id := fun hc => hx (hqx ▸ hc)
        rw [if_neg hqf]
        rw [List.find?_cons_of_pos _ (by simp [hqx]),
          List.find?_cons_of_pos _ (by simp [hqx])]
      · have hhead : ((if q.1 = f.id then (q.1, f) else q).1 = x) = False := by
          by_cases hq : q.1 = f.id
          · rw [if_pos hq]
            simp [hqx]
          · rw [if_neg hq]
            simp [hqx]
        rw [List.find?_cons_of_neg _ (by simp [hhead]),
          List.find?_cons_of_neg _ (by simp [hqx])]
        exact ih

theorem find_append_new_other (l : List (String × Fact)) (f : Fact) (x : String)
    (hx : ¬ x = f.id) :
    (l ++ [(f.id, f)]).find? (fun p => (p.1 = x : Bool)) =
      l.find? (fun p => (p.1 = x : Bool)) := by
  induction l with
  | nil =>
      rw [List.nil_append,
        List.find?_cons_of_neg _ (by simp; exact fun hc => hx hc.symm)]
  | cons q rest ih =>
      rw [List.cons_append]
      by_cases hqx : q.1 = x
      · rw [List.find?_cons_of_pos _ (by simp [hqx]),
          List.find?_cons_of_pos _ (by simp [hqx])]
      · rw [List.find?_cons_of_neg _ (by simp [hqx]),
          List.find?_cons_of_neg _ (by simp [hqx])]
        exact ih

theorem find_dictInsert_other (l : List (String × Fact)) (f : Fact) (x : String)
    (hx : ¬ x = f.id) :
    (InMemoryStorage.dictInsert l f).find? (fun p => (p.1 = x : Bool)) =
      l.find? (fun p => (p.1 = x : Bool)) := by
  unfold InMemoryStorage.dictInsert
  by_cases h : f.id ∈ l.map Prod.fst
  · rw [if_pos h]
    exact find_map_update_other l f x hx
  · rw [if_neg h]
    exact find_append_new_other l f x hx

theorem get_fact_add_fact (st : InMemoryStorage) (f : Fact) :
    (st.add_fact f).get_fact f.id = some f := by
  show ((InMemoryStorage.dictInsert st.facts f).find?
    (fun p => (p.1 = f.id : Bool))).map Prod.snd = some f
  rw [find_dictInsert]
  rfl

theorem get_fact_add_fact_other (st : InMemoryStorage) (f : Fact) (x : String)
    (hx : ¬ x = f.id) :
    (st.add_fact f).get_fact x = st.get_fact x := by
  show ((InMemoryStorage.dictInsert st.facts f).find?
    (fun p => (p.1 = x : Bool))).map Prod.snd = _
  rw [find_dictInsert_other st.facts f x hx]
  rfl

/-- C10: `add_fact` treats an empty-string `fact_id` like an absent one — the
created fact carries the freshly drawn uuid4 string (assumed non-empty, as a
uuid4 rendering always is), is stored under it, nothing appears under the key
`""`, and no fact built through `Fact`'s constructor carries an empty id. -/
theorem C10_empty_fact_id_generates (gen1 gen2 content anyId : String)
    (metadata : Metadata) (st : InMemoryStorage)
    (h1 : gen1 ≠ "") (h2 : gen2 ≠ "") :
    ((KnowledgeGraph.add_fact gen1 gen2 st content (some "") metadata).2.id = gen1) ∧
    ((KnowledgeGraph.add_fact gen1 gen2 st content none metadata).2.id = gen1) ∧
    ((KnowledgeGraph.add_fact gen1 gen2 st content (some "") metadata).1.get_fact gen1 =
      some (KnowledgeGraph.add_fact gen1 gen2 st content (some "") metadata).2) ∧
    ((KnowledgeGraph.add_fact gen1 gen2 st content (some "") metadata).1.get_fact "" =
      st.get_fact "") ∧
    (factConstruct gen2 anyId content metadata).id ≠ "" := by
  have hfact : (KnowledgeGraph.add_fact gen1 gen2 st content (some "") metadata).2 =
      Fact.mk gen1 content metadata := by
    simp [KnowledgeGraph.add_fact, pyTruthy, factConstruct, factPostInit, h1]
  refine ⟨?_, ?_, ?_, ?_, ?_⟩
  · rw [hfact]
  · simp [KnowledgeGraph.add_fact, pyTruthy, factConstruct, factPostInit, h1]
  · show (st.add_fact (KnowledgeGraph.add_fact gen1 gen2 st content (some "") metadata).2).get_fact
        gen1 = _
    rw [hfact]
    exact get_fact_add_fact st (Fact.mk gen1 content metadata)
  · show (st.add_fact (KnowledgeGraph.add_fact gen1 gen2 st content (some "") metadata).2).get_fact
        "" = _
    rw [hfact]
    exact get_fact_add_fact_other st (Fact.mk gen1 content metadata) "" (by simpa using h1.symm)
  · unfold factConstruct factPostInit
    by_cases ha : anyId = "" <;> simp [ha, h2]

/-- Witness for C10 at concrete inputs (`anyId` is instantiated to the empty
string, the interesting constructor case). -/
theorem C10_empty_fact_id_generates_witness :
    ("0fe4a1bc" ≠ "" ∧ "177cc94d" ≠ "") ∧
    ((KnowledgeGraph.add_fact "0fe4a1bc" "177cc94d" InMemoryStorage.empty
        "water is wet" (some "") ∅).2.id = "0fe4a1bc" ∧
      (KnowledgeGraph.add_fact "0fe4a1bc" "177cc94d" InMemoryStorage.empty
        "water is wet" none ∅).2.id = "0fe4a1bc" ∧
      (KnowledgeGraph.add_fact "0fe4a1bc" "177cc94d" InMemoryStorage.empty
        "water is wet" (some "") ∅).1.get_fact "0fe4a1bc" =
        some (KnowledgeGraph.add_fact "0fe4a1bc" "177cc94d" InMemoryStorage.empty
          "water is wet" (some "") ∅).2 ∧
      (KnowledgeGraph.add_fact "0fe4a1bc" "177cc94d" InMemoryStorage.empty
        "water is wet" (some "") ∅).1.get_fact "" =
        InMemoryStorage.empty.get_fact "" ∧
      (factConstruct "177cc94d" "" "water is wet" ∅).id ≠ "") :=
  ⟨⟨by decide, by decide⟩,
   C10_empty_fact_id_generates "0fe4a1bc" "177cc94d" "water is wet" "" ∅
     InMemoryStorage.empty (by decide) (by decide)⟩

end FactNet
